import Mathlib

/-!
The message-dispatch runtime of `src/smear/smear.c`

A shallow embedding of `smear.c` and a verification of its dispatch loop,
its send protocol, its idle flag and its lifecycle.

* Pointers are natural numbers, `NULL` is `0`.
* `queue.h` is not part of the sources at hand: the queue is a parameter
  (`queue_ops`), and `fifo` is the lawful first-in first-out queue.
* A handler is external code.  The call `qmsg->handler(qmsg->wrapper)` is
  recorded in the trace `calls`, and `free(qmsg)` in the trace `freed`.
  The globals `q`, `tid` and `queue_empty` are `static`, so a handler reaches
  them through the `SRT_` functions only; a handler that sends is a producer.
* `exit(c)` ends the process: a function returns `Outcome.exit c s`.
-/

namespace Smear

/-- A C pointer, as an address. -/
abbrev Ptr := Nat

/-- The null pointer. -/
def NULL : Ptr := 0

/-- The struct `mq_msg_t` (lines 13-17): a payload pointer and its handler.
`H` is the type of handler function pointers. -/
structure mq_msg_t (H : Type) where
  wrapper : Ptr
  handler : H
deriving DecidableEq, Repr

/-- The functions of `queue.h` that `smear.c` calls, over a queue state `Q`
holding elements `M`.  `dequeue` gives `none` when the C function returns
`false`; `wait_empty` gives `none` while the caller is still blocked. -/
structure queue_ops (Q M : Type) where
  newq : Q
  size : Q → Int
  enqueue : Q → M → Bool × Q
  dequeue : Q → Option M × Q
  wait_empty : Q → Option Q

/-- Modelled from the spec: the queue of `queue.h` and `queue.c`, which are
not among the sources.  Section 4.1 describes it as a FIFO with `enqueue`,
`dequeue`, `size` and a `wait_until_empty` that blocks the caller until the
queue is empty; section 4.3 says it is unbounded.  Here it is a list, the
head being the oldest element. -/
def fifo (M : Type) : queue_ops (List M) M where
  newq := []
  size := fun q => (q.length : Int)
  enqueue := fun q m => (true, q ++ [m])
  dequeue := fun q =>
    match q with
    | [] => (none, [])
    | m :: rest => (some m, rest)
  wait_empty := fun q => if q.isEmpty then some q else none

/-- The state the functions of `smear.c` act on: the globals `q` and
`queue_empty` (lines 19-21), the trace of handler calls and the trace of
`free` calls. -/
structure Runtime (Q H : Type) where
  q : Q
  queue_empty : Bool
  calls : List (mq_msg_t H)
  freed : List (mq_msg_t H)

/-- How a function of `smear.c` ends: it returns, or the process exits with
the argument given to `exit`. -/
inductive Outcome (σ : Type) where
  | ret (s : σ)
  | exit (code : Int) (s : σ)

/-- What one pass over the loop of `flushEventQueue` does. -/
inductive Iteration (σ : Type) where
  | next (s : σ)
  | done (s : σ)
  | fatal (code : Int) (s : σ)

section Sequential

variable {Q H : Type}

/-- One evaluation of the loop of `flushEventQueue` (lines 38-49): the test
`size(q) > 0`, then either the body (lines 40-47) or, when the test fails,
the statement after the loop (line 49). -/
def flush_iteration (ops : queue_ops Q (mq_msg_t H)) (s : Runtime Q H) :
    Iteration (Runtime Q H) :=
  if ops.size s.q > 0 then
    match ops.dequeue s.q with
    | (none, q1) => .fatal (-1) { s with q := q1 }
    | (some qmsg, q1) =>
      .next { s with q := q1, calls := s.calls ++ [qmsg], freed := s.freed ++ [qmsg] }
  else
    .done { s with queue_empty := true }

/-- The function `flushEventQueue` (lines 33-50).  The loop runs at most
`fuel` times; `none` means the fuel ran out. -/
def flushEventQueue (ops : queue_ops Q (mq_msg_t H)) :
    Nat → Runtime Q H → Option (Outcome (Runtime Q H))
  | 0, _ => none
  | fuel + 1, s =>
    match flush_iteration ops s with
    | .next s1 => flushEventQueue ops fuel s1
    | .done s1 => some (.ret s1)
    | .fatal c s1 => some (.exit c s1)

/-- The state at the head of the loop of `flushEventQueue` after `n` passes
through its body, when there are that many. -/
def loop_head (ops : queue_ops Q (mq_msg_t H)) : Nat → Runtime Q H → Option (Runtime Q H)
  | 0, s => some s
  | n + 1, s =>
    match flush_iteration ops s with
    | .next s1 => loop_head ops n s1
    | _ => none

/-- The function `SMUDGE_panic` (lines 72-75). -/
def SMUDGE_panic (s : Runtime Q H) : Outcome (Runtime Q H) :=
  .exit (-1) s

/-- Line 116 of `SRT_send_message`: `queue_empty = false`. -/
def send_line116 (s : Runtime Q H) : Runtime Q H :=
  { s with queue_empty := false }

/-- Lines 117-121 of `SRT_send_message`: the enqueue and its check. -/
def send_line117 (ops : queue_ops Q (mq_msg_t H)) (qmsg : mq_msg_t H) (s : Runtime Q H) :
    Outcome (Runtime Q H) :=
  match ops.enqueue s.q qmsg with
  | (true, q1) => .ret { s with q := q1 }
  | (false, q1) => .exit (-2) { s with q := q1 }

/-- The function `SRT_send_message` (lines 83-122).  `malloc_ok` says whether
the `malloc` of line 92 gives a block. -/
def SRT_send_message (ops : queue_ops Q (mq_msg_t H)) (malloc_ok : Bool)
    (msg : Ptr) (handler : H) (s : Runtime Q H) : Outcome (Runtime Q H) :=
  if msg = NULL then .exit (-3) s
  else if malloc_ok = false then .exit (-2) s
  else
    let qmsg : mq_msg_t H := { wrapper := msg, handler := handler }
    send_line117 ops qmsg (send_line116 s)

/-- The function `SRT_init` (lines 124-127), on the zeroed statics of a
fresh process. -/
def SRT_init (ops : queue_ops Q (mq_msg_t H)) : Runtime Q H :=
  { q := ops.newq, queue_empty := false, calls := [], freed := [] }

/-- The function `SRT_wait_for_idle` (lines 144-147); `none` while the caller
is blocked in `wait_empty`. -/
def SRT_wait_for_idle (ops : queue_ops Q (mq_msg_t H)) (s : Runtime Q H) :
    Option (Runtime Q H) :=
  match ops.wait_empty s.q with
  | none => none
  | some q1 => some { s with q := q1 }

end Sequential

/-! ## The threads, statement by statement -/

/-- Where the dispatcher thread stands in `mainloop` and `flushEventQueue`:
the line it executes next.  At `l46` and `l47` it holds the envelope that
the dequeue of line 40 gave it. -/
inductive DPc (H : Type) where
  | l38
  | l40
  | l46 (qmsg : mq_msg_t H)
  | l47 (qmsg : mq_msg_t H)
  | l49
  | l57
deriving DecidableEq, Repr

/-- Where a producer thread stands: outside `SRT_send_message`, or at the
line of it that the thread executes next. -/
inductive PPc (H : Type) where
  | idle
  | l92 (msg : Ptr) (handler : H)
  | l116 (qmsg : mq_msg_t H)
  | l117 (qmsg : mq_msg_t H)
deriving DecidableEq, Repr

/-- The process while the dispatcher runs: the runtime state, the program
counters of the dispatcher and of every producer thread, the envelopes
enqueued so far (in enqueue order), and the exit code once the process has
exited. -/
structure Sys (Q H : Type) where
  rt : Runtime Q H
  dpc : DPc H
  ppc : Nat → PPc H
  sent : List (mq_msg_t H)
  halted : Option Int

/-- One statement of one thread. -/
inductive Action (H : Type) where
  /-- Thread `t` calls `SRT_send_message(msg, handler)` and runs its null
  check (lines 87-91). -/
  | call (t : Nat) (msg : Ptr) (handler : H)
  /-- Thread `t` runs the next statement of its send; `malloc_ok` is the
  outcome of `malloc`, read at line 92 only. -/
  | prod (t : Nat) (malloc_ok : Bool)
  /-- The dispatcher runs its next statement. -/
  | disp
deriving DecidableEq, Repr

/-- The lifecycle of the runtime (spec section 4.4). -/
inductive Lifecycle where
  | Uninitialized
  | Initialized
  | Running
  | Stopped
deriving DecidableEq, Repr

/-- The process over its whole life: the lifecycle state, the threads, whether
`pthread_cancel` has been called (line 152) and whether the dispatcher thread
exists and has not ended. -/
structure Proc (Q H : Type) where
  life : Lifecycle
  sys : Sys Q H
  cancel_requested : Bool
  worker_alive : Bool

/-- One step of the process over its whole life. -/
inductive LAction (H : Type) where
  /-- The call `SRT_init()`. -/
  | init
  /-- The call `SRT_run()`. -/
  | run
  /-- Line 152 of `SRT_stop`: `pthread_cancel(tid)`. -/
  | stop_cancel
  /-- The dispatcher acts on the cancellation request and ends. -/
  | worker_ends
  /-- Lines 153-154 of `SRT_stop`: `pthread_join` returns, then `freeq(q)`. -/
  | stop_join
  /-- A statement of a producer or of the dispatcher. -/
  | thread (a : Action H)
deriving DecidableEq, Repr

/-- The process in which one thread sends while the dispatcher drains in one
step: the runtime state and the envelope of a send that stands between
line 116 and line 117. -/
structure Coarse (Q H : Type) where
  rt : Runtime Q H
  pending : Option (mq_msg_t H)

/-- One step of the coarse process. -/
inductive CAction (H : Type) where
  /-- Line 116 of a send of `qmsg`. -/
  | flag (qmsg : mq_msg_t H)
  /-- Line 117 of the send under way. -/
  | enq
  /-- One call of `flushEventQueue` by the dispatcher. -/
  | drain
deriving DecidableEq, Repr

section Threads

variable {Q H : Type}

/-- The state after `SRT_init(); SRT_run()`: an empty queue, the dispatcher at
the top of `flushEventQueue`, no producer inside a send. -/
def Sys.init (ops : queue_ops Q (mq_msg_t H)) : Sys Q H :=
  { rt := SRT_init ops, dpc := .l38, ppc := fun _ => .idle, sent := [], halted := none }

/-- The next statement of the dispatcher (lines 38-49 and 57). -/
def disp_step (ops : queue_ops Q (mq_msg_t H)) (s : Sys Q H) : Sys Q H :=
  match s.dpc with
  | .l38 => { s with dpc := if ops.size s.rt.q > 0 then .l40 else .l49 }
  | .l40 =>
    match ops.dequeue s.rt.q with
    | (none, q1) => { s with rt := { s.rt with q := q1 }, halted := some (-1) }
    | (some qmsg, q1) => { s with rt := { s.rt with q := q1 }, dpc := .l46 qmsg }
  | .l46 qmsg => { s with rt := { s.rt with calls := s.rt.calls ++ [qmsg] }, dpc := .l47 qmsg }
  | .l47 qmsg => { s with rt := { s.rt with freed := s.rt.freed ++ [qmsg] }, dpc := .l38 }
  | .l49 => { s with rt := { s.rt with queue_empty := true }, dpc := .l57 }
  | .l57 => { s with dpc := .l38 }

/-- The next statement of producer `t`, which is inside `SRT_send_message`
(lines 92-121); `none` when it is not. -/
def prod_step (ops : queue_ops Q (mq_msg_t H)) (t : Nat) (malloc_ok : Bool) (s : Sys Q H) :
    Option (Sys Q H) :=
  match s.ppc t with
  | .idle => none
  | .l92 msg handler =>
    if malloc_ok then
      some { s with ppc := Function.update s.ppc t (.l116 { wrapper := msg, handler := handler }) }
    else some { s with halted := some (-2) }
  | .l116 qmsg =>
    some { s with rt := send_line116 s.rt, ppc := Function.update s.ppc t (.l117 qmsg) }
  | .l117 qmsg =>
    match send_line117 ops qmsg s.rt with
    | .ret rt1 =>
      some { s with rt := rt1, ppc := Function.update s.ppc t .idle, sent := s.sent ++ [qmsg] }
    | .exit c rt1 => some { s with rt := rt1, halted := some c }

/-- Producer `t` enters `SRT_send_message(msg, handler)` and runs lines 87-91;
`none` when it is inside a send already. -/
def call_step (t : Nat) (msg : Ptr) (handler : H) (s : Sys Q H) : Option (Sys Q H) :=
  match s.ppc t with
  | .idle =>
    if msg = NULL then some { s with halted := some (-3) }
    else some { s with ppc := Function.update s.ppc t (.l92 msg handler) }
  | _ => none

/-- One statement of one thread; `none` when the thread cannot run it, and
in particular once the process has exited. -/
def step (ops : queue_ops Q (mq_msg_t H)) (s : Sys Q H) (a : Action H) : Option (Sys Q H) :=
  if s.halted.isSome then none
  else
    match a with
    | .call t msg handler => call_step t msg handler s
    | .prod t malloc_ok => prod_step ops t malloc_ok s
    | .disp => some (disp_step ops s)

/-- A schedule, statement after statement. -/
def run (ops : queue_ops Q (mq_msg_t H)) : Sys Q H → List (Action H) → Option (Sys Q H)
  | s, [] => some s
  | s, a :: rest =>
    match step ops s a with
    | none => none
    | some s1 => run ops s1 rest

/-- The envelope the dispatcher has dequeued and not yet handed to its
handler, if any. -/
def in_flight : DPc H → List (mq_msg_t H)
  | .l46 qmsg => [qmsg]
  | _ => []

/-- The envelope the dispatcher has handed to its handler and not yet
released, if any. -/
def unreleased : DPc H → List (mq_msg_t H)
  | .l47 qmsg => [qmsg]
  | _ => []

/-- What `Action.prod` and `Action.call` are: statements of a producer. -/
def Action.is_producer : Action H → Bool
  | .disp => false
  | _ => true

/-- The thread an action belongs to, the dispatcher having none. -/
def Action.thread : Action H → Option Nat
  | .call t _ _ => some t
  | .prod t _ => some t
  | .disp => none

/-! ## The coarse process -/

/-- The coarse process after `SRT_init(); SRT_run()`. -/
def Coarse.init (ops : queue_ops Q (mq_msg_t H)) : Coarse Q H :=
  { rt := SRT_init ops, pending := none }

/-- One step of the coarse process.  The drain is one call of
`flushEventQueue`, with fuel for one pass more than the queue reports
elements; it is a step when the call returns. -/
def cstep (ops : queue_ops Q (mq_msg_t H)) (s : Coarse Q H) : CAction H → Option (Coarse Q H)
  | .flag qmsg =>
    match s.pending with
    | none => some { rt := send_line116 s.rt, pending := some qmsg }
    | some _ => none
  | .enq =>
    match s.pending with
    | none => none
    | some qmsg =>
      match send_line117 ops qmsg s.rt with
      | .ret rt1 => some { rt := rt1, pending := none }
      | .exit _ _ => none
  | .drain =>
    match flushEventQueue ops ((ops.size s.rt.q).toNat + 1) s.rt with
    | some (.ret rt1) => some { s with rt := rt1 }
    | _ => none

/-- A schedule of the coarse process. -/
def crun (ops : queue_ops Q (mq_msg_t H)) : Coarse Q H → List (CAction H) → Option (Coarse Q H)
  | s, [] => some s
  | s, a :: rest =>
    match cstep ops s a with
    | none => none
    | some s1 => crun ops s1 rest

/-! ## The lifecycle -/

/-- The process before `SRT_init`: no queue yet, no dispatcher. -/
def Proc.init (ops : queue_ops Q (mq_msg_t H)) : Proc Q H :=
  { life := .Uninitialized, sys := Sys.init ops, cancel_requested := false,
    worker_alive := false }

/-- Whether the queue `q` points to exists: after `SRT_init` (line 126) and
before the `freeq` of `SRT_stop` (line 154). -/
def Lifecycle.has_queue : Lifecycle → Bool
  | .Initialized => true
  | .Running => true
  | _ => false

/-- Whether the action is the enqueue of line 117 by a producer. -/
def touches_queue (s : Sys Q H) : Action H → Bool
  | .prod t _ =>
    match s.ppc t with
    | .l117 _ => true
    | _ => false
  | _ => false

/-- One step of the process over its whole life, in the order
`Uninitialized`, `Initialized`, `Running`, `Stopped` of the calls
`SRT_init` (lines 124-127), `SRT_run` (lines 129-136) and `SRT_stop`
(lines 149-155).

* The dispatcher runs a statement only while its thread is alive.
* Once cancellation is requested the dispatcher may end.  Cancellation is
  acted on at a cancellation point; `sleep` (line 57) is one, and the queue
  functions and the handlers may hold others, so no program counter is
  excluded here.
* `pthread_join` returns once the dispatcher has ended.
* An enqueue on a queue that does not exist is undefined in C: no step. -/
def lstep (ops : queue_ops Q (mq_msg_t H)) (p : Proc Q H) : LAction H → Option (Proc Q H)
  | .init =>
    if p.life = .Uninitialized ∧ p.sys.halted = none then
      some { p with life := .Initialized,
                    sys := { p.sys with rt := { p.sys.rt with q := ops.newq } } }
    else none
  | .run =>
    if p.life = .Initialized ∧ p.sys.halted = none then
      some { p with life := .Running, worker_alive := true,
                    sys := { p.sys with dpc := .l38 } }
    else none
  | .stop_cancel =>
    if p.life = .Running ∧ p.cancel_requested = false ∧ p.sys.halted = none then
      some { p with cancel_requested := true }
    else none
  | .worker_ends =>
    if p.cancel_requested = true ∧ p.worker_alive = true ∧ p.sys.halted = none then
      some { p with worker_alive := false }
    else none
  | .stop_join =>
    if p.life = .Running ∧ p.cancel_requested = true ∧ p.worker_alive = false
        ∧ p.sys.halted = none then
      some { p with life := .Stopped }
    else none
  | .thread a =>
    if (a.is_producer = false ∧ p.worker_alive = false) ∨
        (touches_queue p.sys a = true ∧ p.life.has_queue = false) then none
    else
      match step ops p.sys a with
      | none => none
      | some s1 => some { p with sys := s1 }

/-- A schedule of the process over its whole life. -/
def lrun (ops : queue_ops Q (mq_msg_t H)) : Proc Q H → List (LAction H) → Option (Proc Q H)
  | p, [] => some p
  | p, a :: rest =>
    match lstep ops p a with
    | none => none
    | some p1 => lrun ops p1 rest

end Threads

/-! ## The scenario of the spec -/

/-- The state the handlers act on after the handler calls of a trace, when
`invoke h p` is what the handler `h` does on the payload `p`. -/
def replay {H W : Type} (invoke : H → Ptr → W → W) (w : W) (calls : List (mq_msg_t H)) : W :=
  calls.foldl (fun acc qmsg => invoke qmsg.handler qmsg.wrapper acc) w

/-- Modelled from the spec: the handler `rec` of the scenario of section 8,
which belongs to the tests and is not among the sources.  It appends the
number its payload carries to the list `recorded`; `heap` gives the number
stored behind a payload pointer. -/
def rec_handler (heap : Ptr → Nat) : Unit → Ptr → List Nat → List Nat :=
  fun _ p recorded => recorded ++ [heap p]

/-- The envelope `SRT_send_message(p, rec)` builds (lines 98-99). -/
def envelope {H : Type} (p : Ptr) (h : H) : mq_msg_t H :=
  { wrapper := p, handler := h }

/-! ## Schedules -/

/-- One send by thread 0 of the payload at address 7 to handler 1, with the
dispatcher passing between line 116 and line 117 of the send: the
dispatcher finds the queue empty (line 38) and sets the flag (line 49)
before the enqueue. -/
def stale_flag_schedule : List (Action Nat) :=
  [.call 0 7 1, .prod 0 true, .prod 0 true, .disp, .disp, .prod 0 true]

/-- Two producers, threads 0 and 1, each in a send; thread 1 enqueues first.
The dispatcher then tests the size, dequeues and calls the handler. -/
def two_producer_schedule : List (Action Nat) :=
  [.call 0 7 1, .call 1 8 2, .prod 0 true, .prod 1 true, .prod 0 true, .prod 1 true,
   .prod 1 true, .prod 0 true, .disp, .disp, .disp]

/-- From `SRT_init` to the end of `SRT_stop`, with one send by thread 0 of
the payload at address 7 that the dispatcher never gets to. -/
def stop_schedule : List (LAction Nat) :=
  [.init, .run, .thread (.call 0 7 1), .thread (.prod 0 true), .thread (.prod 0 true),
   .thread (.prod 0 true), .stop_cancel, .worker_ends, .stop_join]

/-- After `SRT_stop`: thread 0 enters another send and runs it up to the
enqueue. -/
def after_stop_schedule : List (LAction Nat) :=
  [.thread (.call 0 9 1), .thread (.prod 0 true), .thread (.prod 0 true)]

/-- The scenario of section 8 with payloads at the addresses 1, 2, 3: thread 0
sends the three in turn, then the dispatcher runs ten statements: two whole
passes of the loop of `flushEventQueue`, the size test of the third pass
(line 38) and its dequeue (line 40), which empties the queue. -/
def early_idle_schedule : List (Action Unit) :=
  [.call 0 1 (), .prod 0 true, .prod 0 true, .prod 0 true,
   .call 0 2 (), .prod 0 true, .prod 0 true, .prod 0 true,
   .call 0 3 (), .prod 0 true, .prod 0 true, .prod 0 true] ++ List.replicate 10 .disp

/-- A queue that is not lawful: it reports one element and refuses every
dequeue. -/
def stuck_queue (M : Type) : queue_ops Unit M where
  newq := ()
  size := fun _ => 1
  enqueue := fun _ _ => (true, ())
  dequeue := fun _ => (none, ())
  wait_empty := fun _ => none

/-! ## Invariants of the threads -/

/-- The accounting of envelopes: the envelopes handed to handlers, then the
one dequeued and not yet handled, then the queue, are the envelopes enqueued
so far; the envelopes released, then the one handled and not yet released,
are the envelopes handed to handlers. -/
def Accounted {H : Type} (s : Sys (List (mq_msg_t H)) H) : Prop :=
  s.rt.calls ++ in_flight s.dpc ++ s.rt.q = s.sent ∧
  s.rt.freed ++ unreleased s.dpc = s.rt.calls

/-- The payload a producer carries through `SRT_send_message` is not null. -/
def PPc.payload_ok {H : Type} : PPc H → Prop
  | .idle => True
  | .l92 msg _ => msg ≠ NULL
  | .l116 qmsg => qmsg.wrapper ≠ NULL
  | .l117 qmsg => qmsg.wrapper ≠ NULL

/-- No envelope anywhere has a null payload: in the queue, with the
dispatcher, in the trace of handler calls, with a producer. -/
def NonNull {H : Type} (s : Sys (List (mq_msg_t H)) H) : Prop :=
  (∀ m ∈ s.rt.q, m.wrapper ≠ NULL) ∧
  (∀ m ∈ s.rt.calls, m.wrapper ≠ NULL) ∧
  (∀ m ∈ in_flight s.dpc, m.wrapper ≠ NULL) ∧
  (∀ t, (s.ppc t).payload_ok)

/-- Once stopped, the dispatcher thread has ended. -/
def StoppedDead {Q H : Type} (p : Proc Q H) : Prop :=
  p.life = .Stopped → p.worker_alive = false

/-! ## The sequential functions -/

section SequentialFacts

variable {Q H : Type}

theorem flush_iteration_fifo_nil (s : Runtime (List (mq_msg_t H)) H) (h : s.q = []) :
    flush_iteration (fifo (mq_msg_t H)) s = .done { s with queue_empty := true } := by
  simp [flush_iteration, fifo, h]

theorem flush_iteration_fifo_cons (s : Runtime (List (mq_msg_t H)) H) (m : mq_msg_t H)
    (rest : List (mq_msg_t H)) (h : s.q = m :: rest) :
    flush_iteration (fifo (mq_msg_t H)) s =
      .next { s with q := rest, calls := s.calls ++ [m], freed := s.freed ++ [m] } := by
  have hpos : (0 : Int) < (rest.length : Int) + 1 := by positivity
  simp [flush_iteration, fifo, h, hpos]

/-- Over the lawful queue, `flushEventQueue` returns as soon as the fuel
exceeds the length of the queue, having called and released every envelope
in queue order. -/
theorem flushEventQueue_fifo (es : List (mq_msg_t H)) :
    ∀ (fuel : Nat) (s : Runtime (List (mq_msg_t H)) H), s.q = es → es.length < fuel →
      flushEventQueue (fifo (mq_msg_t H)) fuel s =
        some (.ret { q := [], queue_empty := true, calls := s.calls ++ es,
                     freed := s.freed ++ es }) := by
  induction es with
  | nil =>
    intro fuel s hq hfuel
    obtain ⟨k, rfl⟩ : ∃ k, fuel = k + 1 := ⟨fuel - 1, by simp at hfuel; omega⟩
    simp [flushEventQueue, flush_iteration_fifo_nil s hq, hq]
  | cons m rest ih =>
    intro fuel s hq hfuel
    obtain ⟨k, rfl⟩ : ∃ k, fuel = k + 1 := ⟨fuel - 1, by simp at hfuel; omega⟩
    have hk : rest.length < k := by simp at hfuel; omega
    have hrec := ih k { s with q := rest, calls := s.calls ++ [m], freed := s.freed ++ [m] }
      rfl hk
    simp [flushEventQueue, flush_iteration_fifo_cons s m rest hq, hrec]

/-- A pass through the body of the loop leaves `queue_empty` alone. -/
theorem flush_iteration_next_flag (ops : queue_ops Q (mq_msg_t H)) (s s1 : Runtime Q H)
    (h : flush_iteration ops s = .next s1) : s1.queue_empty = s.queue_empty := by
  unfold flush_iteration at h
  split at h
  · split at h
    · cases h
    · cases h; rfl
  · cases h

/-- The fatal branch of one pass: what it needs and what it leaves. -/
theorem flush_iteration_fatal (ops : queue_ops Q (mq_msg_t H)) (s t : Runtime Q H) (c : Int)
    (h : flush_iteration ops s = .fatal c t) :
    c = -1 ∧ ops.size s.q > 0 ∧ (ops.dequeue s.q).1 = none ∧
      t = { s with q := (ops.dequeue s.q).2 } := by
  unfold flush_iteration at h
  split at h
  · next hsz =>
    split at h
    · next q1 heq =>
      cases h
      simp [hsz, heq]
    · cases h
  · cases h

/-- The fatal branch of one pass is taken when the queue reports elements and
the dequeue fails. -/
theorem flush_iteration_fatal_of (ops : queue_ops Q (mq_msg_t H)) (s : Runtime Q H)
    (hsz : ops.size s.q > 0) (hdq : (ops.dequeue s.q).1 = none) :
    flush_iteration ops s = .fatal (-1) { s with q := (ops.dequeue s.q).2 } := by
  unfold flush_iteration
  rw [if_pos hsz]
  rcases hd : ops.dequeue s.q with ⟨o, q1⟩
  rw [hd] at hdq
  simp only at hdq
  subst hdq
  rfl

/-- A fatal end of `flushEventQueue` comes from a pass, reached through the
body alone, in which the queue reports elements and the dequeue fails. -/
theorem flushEventQueue_exit (ops : queue_ops Q (mq_msg_t H)) :
    ∀ (fuel : Nat) (s t : Runtime Q H) (c : Int),
      flushEventQueue ops fuel s = some (.exit c t) →
        c = -1 ∧ t.queue_empty = s.queue_empty ∧
        ∃ n s1, n < fuel ∧ loop_head ops n s = some s1 ∧ ops.size s1.q > 0 ∧
          (ops.dequeue s1.q).1 = none ∧ t = { s1 with q := (ops.dequeue s1.q).2 } := by
  intro fuel
  induction fuel with
  | zero => intro s t c h; simp [flushEventQueue] at h
  | succ k ih =>
    intro s t c h
    unfold flushEventQueue at h
    split at h
    · next s1 hit =>
      obtain ⟨hc, hflag, n, s2, hn, hhead, hsz, hdq, ht⟩ := ih s1 t c h
      refine ⟨hc, ?_, n + 1, s2, by omega, ?_, hsz, hdq, ht⟩
      · rw [hflag, flush_iteration_next_flag ops s s1 hit]
      · simp [loop_head, hit, hhead]
    · cases h
    · next c1 s1 hit =>
      cases h
      obtain ⟨hc, hsz, hdq, ht⟩ := flush_iteration_fatal ops s t c hit
      refine ⟨hc, ?_, 0, s, by omega, rfl, hsz, hdq, ht⟩
      rw [ht]

/-- A pass in which the queue reports elements and the dequeue fails ends
`flushEventQueue` fatally, given the fuel to reach it. -/
theorem flushEventQueue_exit_of (ops : queue_ops Q (mq_msg_t H)) :
    ∀ (n : Nat) (s s1 : Runtime Q H), loop_head ops n s = some s1 → ops.size s1.q > 0 →
      (ops.dequeue s1.q).1 = none → ∀ fuel, n < fuel →
        flushEventQueue ops fuel s = some (.exit (-1) { s1 with q := (ops.dequeue s1.q).2 }) := by
  intro n
  induction n with
  | zero =>
    intro s s1 hhead hsz hdq fuel hfuel
    obtain ⟨k, rfl⟩ : ∃ k, fuel = k + 1 := ⟨fuel - 1, by omega⟩
    simp [loop_head] at hhead
    subst hhead
    simp [flushEventQueue, flush_iteration_fatal_of ops s hsz hdq]
  | succ m ih =>
    intro s s1 hhead hsz hdq fuel hfuel
    obtain ⟨k, rfl⟩ : ∃ k, fuel = k + 1 := ⟨fuel - 1, by omega⟩
    unfold loop_head at hhead
    split at hhead
    · next s2 hit =>
      simp [flushEventQueue, hit, ih s2 s1 hhead hsz hdq k (by omega)]
    · cases hhead

end SequentialFacts

/-! ## The send protocol -/

section Send

variable {Q H : Type}

/-- C2: for every handler and every runtime state, the call
`SRT_send_message(NULL, h)` ends the process with exit code -3 and leaves the
queue and `queue_empty` as they were; no other failure gives -3: a send exits with -3 only on a null
payload, a failed allocation and a refused enqueue give -2, and the failed
dequeue of `flushEventQueue` and `SMUDGE_panic` give -1. -/
theorem C2_null_payload_exit_code (ops : queue_ops Q (mq_msg_t H)) (malloc_ok : Bool)
    (h : H) (s : Runtime Q H) :
    SRT_send_message ops malloc_ok NULL h s = .exit (-3) s ∧
    (∀ (y : Sys Q H) (t : Nat), y.halted = none → y.ppc t = .idle →
      step ops y (.call t NULL h) = some { y with halted := some (-3) }) ∧
    (∀ msg c t, SRT_send_message ops malloc_ok msg h s = .exit c t → (c = -3 ↔ msg = NULL)) ∧
    (∀ msg, msg ≠ NULL → SRT_send_message ops false msg h s = .exit (-2) s) ∧
    (∀ msg, msg ≠ NULL → (ops.enqueue s.q { wrapper := msg, handler := h }).1 = false →
      SRT_send_message ops true msg h s =
        .exit (-2) { s with queue_empty := false,
                            q := (ops.enqueue s.q { wrapper := msg, handler := h }).2 }) ∧
    (∀ fuel c t, flushEventQueue ops fuel s = some (.exit c t) → c = -1) ∧
    SMUDGE_panic s = .exit (-1) s := by
  refine ⟨by simp [SRT_send_message], ?_, ?_, ?_, ?_, ?_, rfl⟩
  · intro y t hh hp
    simp [step, hh, call_step, hp]
  · intro msg c t hres
    by_cases hm : msg = NULL
    · subst hm
      simp [SRT_send_message] at hres
      simp [hres.1]
    · cases malloc_ok with
      | false =>
        simp [SRT_send_message, hm] at hres
        simp [← hres.1, hm]
      | true =>
        have hsend : SRT_send_message ops true msg h s =
            send_line117 ops { wrapper := msg, handler := h } (send_line116 s) := by
          simp [SRT_send_message, hm]
        rw [hsend] at hres
        unfold send_line117 at hres
        split at hres
        · simp at hres
        · simp at hres
          simp [← hres.1, hm]
  · intro msg hm
    simp [SRT_send_message, hm]
  · intro msg hm hfail
    simp only [SRT_send_message, if_neg hm, send_line117, send_line116]
    rcases he : ops.enqueue s.q { wrapper := msg, handler := h } with ⟨b, q1⟩
    rw [he] at hfail
    simp only at hfail
    subst hfail
    simp
  · intro fuel c t hres
    exact (flushEventQueue_exit ops fuel s t c hres).1

/-- C4: for a non-null payload, a successful allocation and a queue that
accepts the push, `SRT_send_message` is line 116 followed by line 117: the
state between them has `queue_empty = false` and the queue untouched, and the
call returns with `queue_empty = false` and the queue the push gave.  Over the
lawful queue that is the old queue with the one envelope of `p` and `h`
appended.  A producer thread takes the same two steps. -/
theorem C4_send_flag_then_enqueue (ops : queue_ops Q (mq_msg_t H)) (p : Ptr) (h : H)
    (s : Runtime Q H) (q1 : Q) (hp : p ≠ NULL)
    (hpush : ops.enqueue s.q { wrapper := p, handler := h } = (true, q1)) :
    SRT_send_message ops true p h s =
        send_line117 ops { wrapper := p, handler := h } (send_line116 s) ∧
    (send_line116 s).queue_empty = false ∧ (send_line116 s).q = s.q ∧
    (send_line116 s).calls = s.calls ∧ (send_line116 s).freed = s.freed ∧
    SRT_send_message ops true p h s = .ret { s with queue_empty := false, q := q1 } ∧
    (∀ (r : Runtime (List (mq_msg_t H)) H),
      SRT_send_message (fifo (mq_msg_t H)) true p h r =
        .ret { r with queue_empty := false, q := r.q ++ [{ wrapper := p, handler := h }] }) ∧
    (∀ (y : Sys (List (mq_msg_t H)) H) (t : Nat) (b1 b2 : Bool), y.halted = none →
      y.ppc t = .l116 { wrapper := p, handler := h } →
      ∃ y1 y2, step (fifo (mq_msg_t H)) y (.prod t b1) = some y1 ∧
        y1.rt.queue_empty = false ∧ y1.rt.q = y.rt.q ∧
        step (fifo (mq_msg_t H)) y1 (.prod t b2) = some y2 ∧
        y2.rt.queue_empty = false ∧
        y2.rt.q = y.rt.q ++ [{ wrapper := p, handler := h }]) := by
  refine ⟨by simp [SRT_send_message, hp], rfl, rfl, rfl, rfl, ?_, ?_, ?_⟩
  · simp [SRT_send_message, hp, send_line117, send_line116, hpush]
  · intro r
    simp [SRT_send_message, hp, send_line117, send_line116, fifo]
  · intro y t b1 b2 hh hpc
    refine ⟨{ y with rt := send_line116 y.rt,
                     ppc := Function.update y.ppc t (.l117 { wrapper := p, handler := h }) },
      { y with rt := { send_line116 y.rt with q := y.rt.q ++ [{ wrapper := p, handler := h }] },
               ppc := Function.update
                 (Function.update y.ppc t (.l117 { wrapper := p, handler := h })) t .idle,
               sent := y.sent ++ [{ wrapper := p, handler := h }] },
      ?_, rfl, rfl, ?_, rfl, rfl⟩
    · simp [step, hh, prod_step, hpc]
    · simp [step, hh, prod_step, send_line117, send_line116, fifo]

/-- C4 at a payload at address 7, a handler 1 and the empty lawful queue. -/
theorem C4_send_flag_then_enqueue_witness :
    SRT_send_message (fifo (mq_msg_t Nat)) true 7 1
        { q := [], queue_empty := true, calls := [], freed := [] } =
      .ret { q := [{ wrapper := 7, handler := 1 }], queue_empty := false, calls := [],
             freed := [] } :=
  (C4_send_flag_then_enqueue (fifo (mq_msg_t Nat)) 7 1
    { q := [], queue_empty := true, calls := [], freed := [] }
    [{ wrapper := 7, handler := 1 }] (by decide) rfl).2.2.2.2.2.1

/-- C6: `SRT_wait_for_idle` does not read `queue_empty` and does not write it.
On two states that differ in `queue_empty` alone it blocks or returns alike,
and returns states that differ in `queue_empty` alone; it returns exactly when
`wait_empty` does; what it returns has `queue_empty` and the traces unchanged,
and over the lawful queue it returns exactly on the empty queue, with the
queue unchanged. -/
theorem C6_wait_for_idle_ignores_flag (ops : queue_ops Q (mq_msg_t H)) (s : Runtime Q H)
    (b : Bool) :
    SRT_wait_for_idle ops { s with queue_empty := b } =
        (SRT_wait_for_idle ops s).map (fun t => { t with queue_empty := b }) ∧
    (SRT_wait_for_idle ops s).isSome = (ops.wait_empty s.q).isSome ∧
    (∀ t, SRT_wait_for_idle ops s = some t →
      t.queue_empty = s.queue_empty ∧ t.calls = s.calls ∧ t.freed = s.freed ∧
        ops.wait_empty s.q = some t.q) ∧
    (∀ (r : Runtime (List (mq_msg_t H)) H),
      SRT_wait_for_idle (fifo (mq_msg_t H)) r = if r.q.isEmpty then some r else none) := by
  refine ⟨?_, ?_, ?_, ?_⟩
  · unfold SRT_wait_for_idle
    cases ops.wait_empty s.q <;> simp
  · unfold SRT_wait_for_idle
    cases ops.wait_empty s.q <;> simp
  · intro t ht
    unfold SRT_wait_for_idle at ht
    cases hw : ops.wait_empty s.q with
    | none => simp [hw] at ht
    | some q1 =>
      simp [hw] at ht
      subst ht
      simp
  · intro r
    unfold SRT_wait_for_idle
    cases hr : r.q.isEmpty <;> simp [fifo, hr]

/-- C7: `flushEventQueue` ends the process exactly when some pass finds the
queue reporting a size above zero and the dequeue failing.  The exit code is
then -1, no handler is called and nothing released in that pass, and
`queue_empty` is not written.  Over a queue whose dequeue succeeds whenever
its size is above zero, `flushEventQueue` never ends the process. -/
theorem C7_fatal_iff_dequeue_inconsistency (ops : queue_ops Q (mq_msg_t H))
    (s t : Runtime Q H) (c : Int) :
    ((∃ fuel, flushEventQueue ops fuel s = some (.exit c t)) ↔
      (c = -1 ∧ ∃ n s1, loop_head ops n s = some s1 ∧ ops.size s1.q > 0 ∧
        (ops.dequeue s1.q).1 = none ∧ t = { s1 with q := (ops.dequeue s1.q).2 })) ∧
    (∀ n s1, loop_head ops n s = some s1 → ops.size s1.q > 0 →
      (ops.dequeue s1.q).1 = none → t = { s1 with q := (ops.dequeue s1.q).2 } →
        t.calls = s1.calls ∧ t.freed = s1.freed ∧ t.queue_empty = s.queue_empty ∧
        ∀ fuel, n < fuel → flushEventQueue ops fuel s = some (.exit (-1) t)) ∧
    ((∀ q, ops.size q > 0 → (ops.dequeue q).1 ≠ none) →
      ∀ fuel, flushEventQueue ops fuel s ≠ some (.exit c t)) ∧
    (∀ fuel (r u : Runtime (List (mq_msg_t H)) H),
      flushEventQueue (fifo (mq_msg_t H)) fuel r ≠ some (.exit c u)) := by
  have key : ∀ (O : queue_ops Q (mq_msg_t H)), (∀ q, O.size q > 0 → (O.dequeue q).1 ≠ none) →
      ∀ fuel, flushEventQueue O fuel s ≠ some (.exit c t) := by
    intro O hlaw fuel hres
    obtain ⟨-, -, n, s1, -, -, hsz, hdq, -⟩ := flushEventQueue_exit O fuel s t c hres
    exact hlaw _ hsz hdq
  refine ⟨⟨?_, ?_⟩, ?_, key ops, ?_⟩
  · rintro ⟨fuel, hres⟩
    obtain ⟨hc, -, n, s1, -, hhead, hsz, hdq, ht⟩ := flushEventQueue_exit ops fuel s t c hres
    exact ⟨hc, n, s1, hhead, hsz, hdq, ht⟩
  · rintro ⟨hc, n, s1, hhead, hsz, hdq, ht⟩
    subst hc ht
    exact ⟨n + 1, flushEventQueue_exit_of ops n s s1 hhead hsz hdq (n + 1) (by omega)⟩
  · intro n s1 hhead hsz hdq ht
    have hrun := flushEventQueue_exit_of ops n s s1 hhead hsz hdq
    have hflag := (flushEventQueue_exit ops (n + 1) s _ (-1) (hrun (n + 1) (by omega))).2.1
    subst ht
    exact ⟨rfl, rfl, hflag, hrun⟩
  · intro fuel r u hres
    obtain ⟨-, -, n, s1, -, -, hsz, hdq, -⟩ :=
      flushEventQueue_exit (fifo (mq_msg_t H)) fuel r u c hres
    cases hq : s1.q with
    | nil => simp [fifo, hq] at hsz
    | cons m rest => simp [fifo, hq] at hdq

end Send

/-! ## The threads -/

section ThreadFacts

variable {Q H : Type}

/-- A property that every statement keeps holds along every schedule. -/
theorem run_induction (ops : queue_ops Q (mq_msg_t H)) (P : Sys Q H → Prop)
    (hstep : ∀ s a s1, P s → step ops s a = some s1 → P s1) :
    ∀ (acts : List (Action H)) (s s1 : Sys Q H), P s → run ops s acts = some s1 → P s1 := by
  intro acts
  induction acts with
  | nil =>
    intro s s1 hP hrun
    simp [run] at hrun
    exact hrun ▸ hP
  | cons a rest ih =>
    intro s s1 hP hrun
    unfold run at hrun
    cases hs : step ops s a with
    | none => simp [hs] at hrun
    | some s2 =>
      simp only [hs] at hrun
      exact ih s2 s1 (hstep s a s2 hP hs) hrun

/-- Every statement keeps the accounting of envelopes. -/
theorem step_accounted (s s1 : Sys (List (mq_msg_t H)) H) (a : Action H)
    (hinv : Accounted s) (hs : step (fifo (mq_msg_t H)) s a = some s1) : Accounted s1 := by
  obtain ⟨hq, hf⟩ := hinv
  unfold step at hs
  split at hs
  · cases hs
  · cases a with
    | call t msg handler =>
      simp only [call_step] at hs
      split at hs
      · split at hs <;> (cases hs; exact ⟨hq, hf⟩)
      · cases hs
    | prod t ok =>
      simp only [prod_step] at hs
      split at hs
      · cases hs
      · split at hs <;> (cases hs; exact ⟨hq, hf⟩)
      · cases hs; exact ⟨hq, hf⟩
      · simp only [send_line117, fifo] at hs
        cases hs
        refine ⟨?_, hf⟩
        simp only [← hq, List.append_assoc]
    | disp =>
      cases hs
      cases hd : s.dpc with
      | l40 =>
        simp only [hd, in_flight, unreleased, List.append_nil] at hq hf
        cases hl : s.rt.q with
        | nil => simp [disp_step, fifo, hl, Accounted, in_flight, unreleased, hd, ← hq, hf]
        | cons m rest => simp [disp_step, fifo, hl, Accounted, in_flight, unreleased, hd, ← hq, hf]
      | l38 =>
        simp only [hd, in_flight, unreleased, List.append_nil] at hq hf
        simp only [disp_step, hd, Accounted]
        split <;> simp [in_flight, unreleased, ← hq, hf]
      | _ =>
        simp only [hd, in_flight, unreleased, List.append_nil] at hq hf
        simp [disp_step, Accounted, in_flight, unreleased, hd, ← hq, hf]

/-- Replacing the program counter of one producer keeps the payloads of all
producers non-null when the new counter carries a non-null payload. -/
theorem payload_ok_update (ppc : Nat → PPc H) (t : Nat) (pc : PPc H)
    (hall : ∀ u, (ppc u).payload_ok) (hpc : pc.payload_ok) :
    ∀ u, (Function.update ppc t pc u).payload_ok := by
  intro u
  by_cases hu : u = t
  · subst hu
    simpa using hpc
  · simpa [Function.update_noteq hu] using hall u

/-- Every statement keeps null payloads out. -/
theorem step_nonnull (s s1 : Sys (List (mq_msg_t H)) H) (a : Action H)
    (hinv : NonNull s) (hs : step (fifo (mq_msg_t H)) s a = some s1) : NonNull s1 := by
  obtain ⟨hq, hc, hfl, hp⟩ := hinv
  unfold step at hs
  split at hs
  · cases hs
  · cases a with
    | call t msg handler =>
      simp only [call_step] at hs
      split at hs
      · split at hs
        · cases hs; exact ⟨hq, hc, hfl, hp⟩
        · next hm =>
          cases hs
          exact ⟨hq, hc, hfl, payload_ok_update _ _ _ hp hm⟩
      · cases hs
    | prod t ok =>
      simp only [prod_step] at hs
      split at hs
      · cases hs
      · next msg handler hpc =>
        have hmsg : msg ≠ NULL := by simpa [hpc, PPc.payload_ok] using hp t
        split at hs
        · cases hs
          exact ⟨hq, hc, hfl, payload_ok_update _ _ _ hp hmsg⟩
        · cases hs; exact ⟨hq, hc, hfl, hp⟩
      · next qmsg hpc =>
        have hmsg : qmsg.wrapper ≠ NULL := by simpa [hpc, PPc.payload_ok] using hp t
        cases hs
        exact ⟨hq, hc, hfl, payload_ok_update _ _ _ hp hmsg⟩
      · next qmsg hpc =>
        have hmsg : qmsg.wrapper ≠ NULL := by simpa [hpc, PPc.payload_ok] using hp t
        simp only [send_line117, fifo] at hs
        cases hs
        refine ⟨?_, hc, hfl, payload_ok_update _ _ _ hp trivial⟩
        intro m hm
        rcases List.mem_append.mp hm with h1 | h1
        · exact hq m h1
        · simp at h1
          exact h1 ▸ hmsg
    | disp =>
      cases hs
      cases hd : s.dpc with
      | l40 =>
        cases hl : s.rt.q with
        | nil =>
          refine ⟨?_, ?_, ?_, ?_⟩ <;>
            simp [disp_step, fifo, hl, hd, in_flight] <;> first | exact hc | exact hp
        | cons m rest =>
          rw [hl] at hq
          refine ⟨?_, ?_, ?_, ?_⟩
          · simp only [disp_step, fifo, hl, hd]
            intro x hx
            exact hq x (List.mem_cons_of_mem _ hx)
          · simpa [disp_step, fifo, hl, hd] using hc
          · simp only [disp_step, fifo, hl, hd, in_flight]
            intro x hx
            simp at hx
            exact hx ▸ hq m (List.mem_cons_self _ _)
          · simpa [disp_step, fifo, hl, hd] using hp
      | l38 =>
        refine ⟨?_, ?_, ?_, ?_⟩
        · simpa [disp_step, hd] using hq
        · simpa [disp_step, hd] using hc
        · simp only [disp_step, hd]
          split <;> simp [in_flight]
        · simpa [disp_step, hd] using hp
      | l46 m =>
        have hm : m.wrapper ≠ NULL := hfl m (by simp [hd, in_flight])
        refine ⟨?_, ?_, ?_, ?_⟩
        · simpa [disp_step, hd] using hq
        · simp only [disp_step, hd]
          intro x hx
          rcases List.mem_append.mp hx with h1 | h1
          · exact hc x h1
          · simp at h1
            exact h1 ▸ hm
        · simp [disp_step, hd, in_flight]
        · simpa [disp_step, hd] using hp
      | _ =>
        refine ⟨?_, ?_, ?_, ?_⟩
        · simpa [disp_step, hd] using hq
        · simpa [disp_step, hd] using hc
        · simp [disp_step, hd, in_flight]
        · simpa [disp_step, hd] using hp

/-- A statement of a producer leaves the queue it found as the front of the
queue it leaves, and leaves the dispatcher and the traces alone. -/
theorem producer_step_keeps (s s1 : Sys (List (mq_msg_t H)) H) (a : Action H)
    (ha : a.is_producer = true) (hs : step (fifo (mq_msg_t H)) s a = some s1) :
    s.rt.q <+: s1.rt.q ∧ s1.rt.calls = s.rt.calls ∧ s1.rt.freed = s.rt.freed ∧
      s1.dpc = s.dpc := by
  unfold step at hs
  split at hs
  · cases hs
  · cases a with
    | call t msg handler =>
      simp only [call_step] at hs
      split at hs
      · split at hs <;> (cases hs; exact ⟨List.prefix_refl _, rfl, rfl, rfl⟩)
      · cases hs
    | prod t ok =>
      simp only [prod_step] at hs
      split at hs
      · cases hs
      · split at hs <;> (cases hs; exact ⟨List.prefix_refl _, rfl, rfl, rfl⟩)
      · cases hs; exact ⟨List.prefix_refl _, rfl, rfl, rfl⟩
      · simp only [send_line117, fifo] at hs
        cases hs
        exact ⟨List.prefix_append _ _, rfl, rfl, rfl⟩
    | disp => simp [Action.is_producer] at ha

/-- The state after `SRT_init(); SRT_run()` has its envelopes accounted for. -/
theorem init_accounted : Accounted (Sys.init (fifo (mq_msg_t H))) := by
  simp [Accounted, Sys.init, SRT_init, fifo, in_flight, unreleased]

/-- The state after `SRT_init(); SRT_run()` holds no null payload. -/
theorem init_nonnull : NonNull (Sys.init (fifo (mq_msg_t H))) := by
  simp [NonNull, Sys.init, SRT_init, fifo, in_flight, PPc.payload_ok]

/-- C3: in every state reachable from the state after `SRT_init(); SRT_run()`
by statements of any number of producers and of the dispatcher, over the
lawful queue: the envelopes handed to handlers, then the one dequeued and not
yet handled, then the queue, are the envelopes enqueued so far in enqueue
order; the released envelopes, then the one handled and not yet released, are
the envelopes handed to handlers.  So the released envelopes are a front
part of the handled ones, these a front part of the enqueued ones, each
enqueued envelope is in exactly one of the three places, and a statement of
a producer removes nothing from the queue and calls and releases nothing. -/
theorem C3_envelopes_accounted_once (acts : List (Action H))
    (s : Sys (List (mq_msg_t H)) H)
    (hrun : run (fifo (mq_msg_t H)) (Sys.init (fifo (mq_msg_t H))) acts = some s) :
    s.rt.calls ++ in_flight s.dpc ++ s.rt.q = s.sent ∧
    s.rt.freed ++ unreleased s.dpc = s.rt.calls ∧
    s.rt.freed <+: s.rt.calls ∧ s.rt.calls <+: s.sent ∧
    s.rt.calls.length + (in_flight s.dpc).length + s.rt.q.length = s.sent.length ∧
    (∀ a s1, a.is_producer = true → step (fifo (mq_msg_t H)) s a = some s1 →
      s.rt.q <+: s1.rt.q ∧ s1.rt.calls = s.rt.calls ∧ s1.rt.freed = s.rt.freed ∧
        s1.dpc = s.dpc) := by
  have hinv : Accounted s :=
    run_induction (fifo (mq_msg_t H)) Accounted
      (fun x a x1 hx hstep => step_accounted x x1 a hx hstep) acts _ s init_accounted hrun
  obtain ⟨hq, hf⟩ := hinv
  refine ⟨hq, hf, ⟨_, hf⟩, ⟨in_flight s.dpc ++ s.rt.q, by rw [← List.append_assoc]; exact hq⟩,
    ?_, fun a s1 ha hs => producer_step_keeps s s1 a ha hs⟩
  rw [← hq]
  simp [Nat.add_assoc]

/-- C5: in every state reachable from the state after `SRT_init(); SRT_run()`
by statements of producers and of the dispatcher, over the lawful queue,
every envelope in the queue has a non-null payload, and so has the envelope
the dispatcher holds and every envelope handed to a handler; a call of
`flushEventQueue` from such a state returns having handed non-null payloads
only. -/
theorem C5_payloads_never_null (acts : List (Action H))
    (s : Sys (List (mq_msg_t H)) H)
    (hrun : run (fifo (mq_msg_t H)) (Sys.init (fifo (mq_msg_t H))) acts = some s) :
    (∀ m ∈ s.rt.q, m.wrapper ≠ NULL) ∧
    (∀ m ∈ in_flight s.dpc, m.wrapper ≠ NULL) ∧
    (∀ m ∈ s.rt.calls, m.wrapper ≠ NULL) ∧
    (∃ r, flushEventQueue (fifo (mq_msg_t H)) (s.rt.q.length + 1) s.rt = some (.ret r) ∧
      ∀ m ∈ r.calls, m.wrapper ≠ NULL) := by
  have hinv : NonNull s :=
    run_induction (fifo (mq_msg_t H)) NonNull
      (fun x a x1 hx hstep => step_nonnull x x1 a hx hstep) acts _ s init_nonnull hrun
  obtain ⟨hq, hc, hfl, -⟩ := hinv
  refine ⟨hq, hfl, hc, _, flushEventQueue_fifo s.rt.q _ s.rt rfl (by omega), ?_⟩
  intro m hm
  rcases List.mem_append.mp hm with h1 | h1
  · exact hc m h1
  · exact hq m h1

/-- C3 on the schedule of two producers: thread 1 enqueued first, its
envelope has been handed to its handler and is not yet released, the
envelope of thread 0 is in the queue. -/
theorem C3_envelopes_accounted_once_witness :
    ∃ s, run (fifo (mq_msg_t Nat)) (Sys.init (fifo (mq_msg_t Nat))) two_producer_schedule
        = some s ∧
      s.rt.calls = [{ wrapper := 8, handler := 2 }] ∧
      s.rt.q = [{ wrapper := 7, handler := 1 }] ∧
      s.sent = [{ wrapper := 8, handler := 2 }, { wrapper := 7, handler := 1 }] ∧
      s.rt.freed = [] ∧
      s.rt.calls ++ in_flight s.dpc ++ s.rt.q = s.sent ∧
      s.rt.freed ++ unreleased s.dpc = s.rt.calls :=
  ⟨_, rfl, rfl, rfl, rfl, rfl,
    (C3_envelopes_accounted_once two_producer_schedule _ rfl).1,
    (C3_envelopes_accounted_once two_producer_schedule _ rfl).2.1⟩

/-- C5 on the schedule of two producers: the envelope in the queue carries
the payload at address 7, the one handed to a handler the payload at
address 8, and neither is null. -/
theorem C5_payloads_never_null_witness :
    ∃ s, run (fifo (mq_msg_t Nat)) (Sys.init (fifo (mq_msg_t Nat))) two_producer_schedule
        = some s ∧
      s.rt.q = [{ wrapper := 7, handler := 1 }] ∧
      s.rt.calls = [{ wrapper := 8, handler := 2 }] ∧
      (∀ m ∈ s.rt.q, m.wrapper ≠ NULL) ∧ (∀ m ∈ s.rt.calls, m.wrapper ≠ NULL) :=
  ⟨_, rfl, rfl, rfl,
    (C5_payloads_never_null two_producer_schedule _ rfl).1,
    (C5_payloads_never_null two_producer_schedule _ rfl).2.2.1⟩

/-- C8: `queue_empty = true` does not mean the queue is empty.  With the send
in two steps (line 116, line 117) and the drain one call of
`flushEventQueue`, the schedule flag, drain, enqueue goes from the state
after `SRT_init(); SRT_run()` through a state with the flag `false`, then a
state with the flag `true` and the queue empty, to a state with the flag
`true` and the envelope in the queue.  The same holds statement by
statement, the dispatcher running lines 38 and 49 between lines 116 and 117
of the send. -/
theorem C8_flag_true_queue_nonempty (m : mq_msg_t H) :
    (∃ s1 s2 s3,
      cstep (fifo (mq_msg_t H)) (Coarse.init (fifo (mq_msg_t H))) (.flag m) = some s1 ∧
      s1.rt.queue_empty = false ∧ s1.rt.q = [] ∧
      cstep (fifo (mq_msg_t H)) s1 .drain = some s2 ∧
      s2.rt.queue_empty = true ∧ s2.rt.q = [] ∧
      cstep (fifo (mq_msg_t H)) s2 .enq = some s3 ∧
      s3.rt.queue_empty = true ∧ s3.rt.q = [m] ∧ s3.rt.q ≠ [] ∧ s3.rt.calls = [] ∧
      crun (fifo (mq_msg_t H)) (Coarse.init (fifo (mq_msg_t H))) [.flag m, .drain, .enq]
        = some s3) ∧
    (∃ s, run (fifo (mq_msg_t Nat)) (Sys.init (fifo (mq_msg_t Nat))) stale_flag_schedule
        = some s ∧
      s.rt.queue_empty = true ∧ s.rt.q = [{ wrapper := 7, handler := 1 }] ∧ s.rt.calls = []) :=
  ⟨⟨_, _, _, rfl, rfl, rfl, rfl, rfl, rfl, rfl, rfl, rfl, by simp, rfl, rfl⟩,
    ⟨_, rfl, rfl, rfl, rfl⟩⟩

end ThreadFacts

/-! ## The drain -/

section Drain

variable {H : Type}

/-- On the queue that refuses every dequeue, `flushEventQueue` ends the
process with exit code -1 in its first pass, with no handler called and
`queue_empty` not written. -/
theorem flushEventQueue_stuck_queue (s : Runtime Unit H) (fuel : Nat) :
    flushEventQueue (stuck_queue (mq_msg_t H)) (fuel + 1) s = some (.exit (-1) s) := by
  simp [flushEventQueue, flush_iteration, stuck_queue]

/-- The dispatcher, running alone from line 38 over the lawful queue, takes
four statements for each envelope and two more to reach line 57, and is then
where one call of `flushEventQueue` leaves the runtime. -/
theorem disp_steps_flush (es : List (mq_msg_t H)) :
    ∀ (s : Sys (List (mq_msg_t H)) H), s.rt.q = es → s.dpc = .l38 → s.halted = none →
      run (fifo (mq_msg_t H)) s (List.replicate (4 * es.length + 2) .disp) =
        some { s with
          rt := { q := [], queue_empty := true, calls := s.rt.calls ++ es,
                  freed := s.rt.freed ++ es },
          dpc := .l57 } := by
  induction es with
  | nil =>
    intro s hq hd hh
    simp [List.replicate, run, step, hh, disp_step, hd, fifo, hq]
  | cons m rest ih =>
    intro s hq hd hh
    have hlist : List.replicate (4 * (m :: rest).length + 2) (Action.disp : Action H) =
        .disp :: .disp :: .disp :: .disp :: List.replicate (4 * rest.length + 2) .disp := by
      have hlen : 4 * (m :: rest).length + 2 = (4 * rest.length + 2) + 1 + 1 + 1 + 1 := by
        simp only [List.length_cons]; omega
      rw [hlen]
      rfl
    have hpos : (0 : Int) < (rest.length : Int) + 1 := by positivity
    have hrec := ih
      { s with rt := { s.rt with q := rest, calls := s.rt.calls ++ [m],
                                 freed := s.rt.freed ++ [m] },
               dpc := .l38 } rfl rfl hh
    rw [hlist]
    generalize List.replicate (4 * rest.length + 2) (Action.disp : Action H) = tail at hrec ⊢
    simp only [run, step, hh, disp_step, hd, fifo, hq, Option.isSome_none, Bool.false_eq_true,
      if_false, List.length_cons, Nat.cast_add, Nat.cast_one, gt_iff_lt, hpos, if_true]
    simpa [fifo, hh, List.append_assoc] using hrec

/-- The statements of a producer, run without interruption over the lawful
queue, do to the runtime what `SRT_send_message` does. -/
theorem prod_steps_send (s : Sys (List (mq_msg_t H)) H) (t : Nat) (msg : Ptr) (h : H)
    (hm : msg ≠ NULL) (hidle : s.ppc t = .idle) (hh : s.halted = none) :
    ∃ s1, run (fifo (mq_msg_t H)) s [.call t msg h, .prod t true, .prod t true, .prod t true]
        = some s1 ∧
      SRT_send_message (fifo (mq_msg_t H)) true msg h s.rt = .ret s1.rt ∧
      s1.ppc t = .idle ∧ s1.halted = none ∧ s1.dpc = s.dpc := by
  refine ⟨{ s with
      rt := { s.rt with queue_empty := false,
                        q := s.rt.q ++ [{ wrapper := msg, handler := h }] },
      ppc := Function.update (Function.update (Function.update
        (Function.update s.ppc t (.l92 msg h)) t (.l116 { wrapper := msg, handler := h })) t
        (.l117 { wrapper := msg, handler := h })) t .idle,
      sent := s.sent ++ [{ wrapper := msg, handler := h }] }, ?_, ?_, ?_, hh, rfl⟩
  · simp [run, step, hh, call_step, hidle, hm, prod_step, send_line117, send_line116, fifo]
  · simp [SRT_send_message, hm, send_line117, send_line116, fifo]
  · simp

/-- A schedule in two parts runs the first part, then the second. -/
theorem run_append (ops : queue_ops (List (mq_msg_t H)) (mq_msg_t H)) :
    ∀ (a b : List (Action H)) (s s1 : Sys (List (mq_msg_t H)) H), run ops s a = some s1 →
      run ops s (a ++ b) = run ops s1 b := by
  intro a
  induction a with
  | nil =>
    intro b s s1 h
    simp [run] at h
    simp [h]
  | cons x rest ih =>
    intro b s s1 h
    unfold run at h
    cases hs : step ops s x with
    | none => simp [hs] at h
    | some s2 =>
      simp only [hs] at h
      simp only [List.cons_append, run, hs]
      exact ih b s2 s1 h

/-- The dispatcher stands at the dequeue of line 40 only with a non-empty
queue: it came there by the size test, and producers only add. -/
theorem step_dequeue_ready (s s1 : Sys (List (mq_msg_t H)) H) (a : Action H)
    (hinv : s.dpc = .l40 → s.rt.q ≠ []) (hs : step (fifo (mq_msg_t H)) s a = some s1) :
    s1.dpc = .l40 → s1.rt.q ≠ [] := by
  cases hprod : a.is_producer with
  | true =>
    obtain ⟨hpre, -, -, hd⟩ := producer_step_keeps s s1 a hprod hs
    intro h40 hnil
    rw [hd] at h40
    rw [hnil] at hpre
    exact hinv h40 (List.prefix_nil.mp hpre)
  | false =>
    cases a with
    | disp =>
      unfold step at hs
      split at hs
      · cases hs
      · cases hs
        cases hd : s.dpc with
        | l38 =>
          simp only [disp_step, hd]
          split
          · next hsz =>
            intro _ hnil
            simp [fifo, hnil] at hsz
          · intro h; cases h
        | l40 =>
          cases hl : s.rt.q with
          | nil => exact absurd hl (hinv hd)
          | cons m rest =>
            simp only [disp_step, hd, fifo, hl]
            intro h; cases h
        | _ =>
          simp only [disp_step, hd]
          intro h; cases h
    | call t msg handler => simp [Action.is_producer] at hprod
    | prod t ok => simp [Action.is_producer] at hprod

/-- From any state of a live process the dispatcher, running alone, comes to
the top of `flushEventQueue` (line 38) in at most three statements, having
handed to its handler the envelope it held or was about to dequeue. -/
theorem disp_to_top (y : Sys (List (mq_msg_t H)) H) (hh : y.halted = none)
    (h40 : y.dpc = .l40 → y.rt.q ≠ []) :
    ∃ k y0, run (fifo (mq_msg_t H)) y (List.replicate k .disp) = some y0 ∧
      y0.dpc = .l38 ∧ y0.halted = none ∧ y0.sent = y.sent ∧ y0.ppc = y.ppc ∧
      y0.rt.calls ++ y0.rt.q = y.rt.calls ++ in_flight y.dpc ++ y.rt.q := by
  cases hd : y.dpc with
  | l38 =>
    exact ⟨0, y, rfl, hd, hh, rfl, rfl, by simp [in_flight]⟩
  | l40 =>
    cases hl : y.rt.q with
    | nil => exact absurd hl (h40 hd)
    | cons m rest =>
      refine ⟨3, { y with rt := { y.rt with q := rest, calls := y.rt.calls ++ [m],
                                            freed := y.rt.freed ++ [m] },
                          dpc := .l38 }, ?_, rfl, hh, rfl, rfl, ?_⟩
      · simp [List.replicate, run, step, hh, disp_step, hd, fifo, hl]
      · simp [in_flight]
  | l46 m =>
    refine ⟨2, { y with rt := { y.rt with calls := y.rt.calls ++ [m],
                                          freed := y.rt.freed ++ [m] },
                        dpc := .l38 }, ?_, rfl, hh, rfl, rfl, ?_⟩
    · simp [List.replicate, run, step, hh, disp_step, hd]
    · simp [in_flight]
  | l47 m =>
    refine ⟨1, { y with rt := { y.rt with freed := y.rt.freed ++ [m] }, dpc := .l38 },
      ?_, rfl, hh, rfl, rfl, ?_⟩
    · simp [List.replicate, run, step, hh, disp_step, hd]
    · simp [in_flight]
  | l49 =>
    refine ⟨2, { y with rt := { y.rt with queue_empty := true }, dpc := .l38 },
      ?_, rfl, hh, rfl, rfl, ?_⟩
    · simp [List.replicate, run, step, hh, disp_step, hd]
    · simp [in_flight]
  | l57 =>
    refine ⟨1, { y with dpc := .l38 }, ?_, rfl, hh, rfl, rfl, ?_⟩
    · simp [List.replicate, run, step, hh, disp_step, hd]
    · simp [in_flight]

/-- From any state of a live process the dispatcher, running alone, reaches
the end of a drain: the queue empty, no envelope held, `queue_empty = true`,
and every envelope it held or found in the queue handed to its handler, in
order. -/
theorem disp_reaches_idle (y : Sys (List (mq_msg_t H)) H) (hh : y.halted = none)
    (h40 : y.dpc = .l40 → y.rt.q ≠ []) :
    ∃ n y1, run (fifo (mq_msg_t H)) y (List.replicate n .disp) = some y1 ∧
      y1.rt.q = [] ∧ y1.dpc = .l57 ∧ y1.rt.queue_empty = true ∧ y1.halted = none ∧
      y1.sent = y.sent ∧ y1.ppc = y.ppc ∧
      y1.rt.calls = y.rt.calls ++ in_flight y.dpc ++ y.rt.q := by
  obtain ⟨k, y0, hrun0, hd0, hh0, hsent0, hppc0, hcalls0⟩ := disp_to_top y hh h40
  have hflush := disp_steps_flush y0.rt.q y0 rfl hd0 hh0
  refine ⟨k + (4 * y0.rt.q.length + 2),
    { y0 with
      rt := { q := [], queue_empty := true, calls := y0.rt.calls ++ y0.rt.q,
              freed := y0.rt.freed ++ y0.rt.q },
      dpc := .l57 }, ?_, rfl, rfl, rfl, hh0, hsent0, hppc0, hcalls0⟩
  rw [List.replicate_add, run_append _ _ _ y y0 hrun0]
  exact hflush

/-- C1, as stated, fails in its scenario: on `early_idle_schedule` the three
sends have returned, the dispatcher has dequeued the last envelope (line 40)
and not yet called its handler (line 46), the queue is empty, so
`SRT_wait_for_idle` returns, and the handlers have recorded `[0, 1]`, not
`[0, 1, 2]`. -/
theorem C1_scenario_wait_returns_early :
    (∃ y, run (fifo (mq_msg_t Unit)) (Sys.init (fifo (mq_msg_t Unit))) early_idle_schedule
        = some y ∧
      y.sent = [envelope 1 (), envelope 2 (), envelope 3 ()] ∧
      y.ppc 0 = .idle ∧ y.halted = none ∧ y.rt.q = [] ∧ y.dpc = .l46 (envelope 3 ()) ∧
      SRT_wait_for_idle (fifo (mq_msg_t Unit)) y.rt = some y.rt ∧
      replay (rec_handler (fun p => p - 1)) [] y.rt.calls = [0, 1]) ∧
    ¬ (∀ (acts : List (Action Unit)) (y : Sys (List (mq_msg_t Unit)) Unit)
        (r : Runtime (List (mq_msg_t Unit)) Unit),
        run (fifo (mq_msg_t Unit)) (Sys.init (fifo (mq_msg_t Unit))) acts = some y →
        y.sent = [envelope 1 (), envelope 2 (), envelope 3 ()] → y.ppc 0 = .idle →
        SRT_wait_for_idle (fifo (mq_msg_t Unit)) y.rt = some r →
        replay (rec_handler (fun p => p - 1)) [] r.calls = [0, 1, 2]) := by
  refine ⟨⟨_, rfl, rfl, rfl, rfl, rfl, rfl, rfl, rfl⟩, ?_⟩
  intro hall
  have hrec := hall early_idle_schedule _ _ rfl rfl rfl rfl
  exact absurd hrec (by decide)

/-- C1, amended: over the lawful queue holding `es`, with nothing sent
meanwhile, one call of `flushEventQueue` returns (any fuel above the length
of the queue is enough), has called the handlers of `es` on their payloads,
each once and in queue order, after the calls made before, has released
these envelopes, and leaves the queue empty and `queue_empty = true`.  In the
scenario `SRT_init(); SRT_run(); ` three sends of payloads carrying 0, 1, 2
to the recording handler, then `SRT_wait_for_idle()`:

* when the dispatcher drains after the sends, `SRT_wait_for_idle` is blocked
  before the drain, returns after it, and `recorded = [0, 1, 2]`;
* under every interleaving of statements, once the three envelopes are
  enqueued, a return of `SRT_wait_for_idle` finds `recorded = [0, 1, 2]`, or
  finds `recorded = [0, 1]` with the dispatcher holding the third envelope,
  dequeued and not yet handed to its handler;
* under every interleaving, once the three envelopes are enqueued and while
  the process lives, the dispatcher running on reaches a state with the
  queue empty, no envelope held, `SRT_wait_for_idle` returning and
  `recorded = [0, 1, 2]`. -/
theorem C1_flush_order_and_scenario_outcome (es : List (mq_msg_t H))
    (s : Runtime (List (mq_msg_t H)) H) (heap : Ptr → Nat) (p0 p1 p2 : Ptr)
    (hq : s.q = es) (h0 : p0 ≠ NULL) (h1 : p1 ≠ NULL) (h2 : p2 ≠ NULL)
    (v0 : heap p0 = 0) (v1 : heap p1 = 1) (v2 : heap p2 = 2) :
    (∀ fuel, es.length < fuel →
      flushEventQueue (fifo (mq_msg_t H)) fuel s =
        some (.ret { q := [], queue_empty := true, calls := s.calls ++ es,
                     freed := s.freed ++ es })) ∧
    (∃ s1 s2 s3 s4,
      SRT_send_message (fifo (mq_msg_t Unit)) true p0 () (SRT_init (fifo (mq_msg_t Unit)))
        = .ret s1 ∧
      SRT_send_message (fifo (mq_msg_t Unit)) true p1 () s1 = .ret s2 ∧
      SRT_send_message (fifo (mq_msg_t Unit)) true p2 () s2 = .ret s3 ∧
      s3.q = [envelope p0 (), envelope p1 (), envelope p2 ()] ∧
      SRT_wait_for_idle (fifo (mq_msg_t Unit)) s3 = none ∧
      (∀ fuel, 3 < fuel → flushEventQueue (fifo (mq_msg_t Unit)) fuel s3 = some (.ret s4)) ∧
      SRT_wait_for_idle (fifo (mq_msg_t Unit)) s4 = some s4 ∧
      s4.q = [] ∧ s4.queue_empty = true ∧
      replay (rec_handler heap) [] s4.calls = [0, 1, 2]) ∧
    (∀ (acts : List (Action Unit)) (y : Sys (List (mq_msg_t Unit)) Unit),
      run (fifo (mq_msg_t Unit)) (Sys.init (fifo (mq_msg_t Unit))) acts = some y →
      y.sent = [envelope p0 (), envelope p1 (), envelope p2 ()] →
      (∀ r, SRT_wait_for_idle (fifo (mq_msg_t Unit)) y.rt = some r →
        r = y.rt ∧
        ((in_flight y.dpc = [] ∧ replay (rec_handler heap) [] r.calls = [0, 1, 2]) ∨
         (in_flight y.dpc = [envelope p2 ()] ∧
            replay (rec_handler heap) [] r.calls = [0, 1]))) ∧
      (y.halted = none →
        ∃ n y1, run (fifo (mq_msg_t Unit)) y (List.replicate n .disp) = some y1 ∧
          y1.rt.q = [] ∧ in_flight y1.dpc = [] ∧ y1.halted = none ∧
          SRT_wait_for_idle (fifo (mq_msg_t Unit)) y1.rt = some y1.rt ∧
          replay (rec_handler heap) [] y1.rt.calls = [0, 1, 2])) := by
  refine ⟨fun fuel hfuel => flushEventQueue_fifo es fuel s hq hfuel, ?_, ?_⟩
  · refine ⟨{ q := [envelope p0 ()], queue_empty := false, calls := [], freed := [] },
      { q := [envelope p0 (), envelope p1 ()], queue_empty := false, calls := [], freed := [] },
      { q := [envelope p0 (), envelope p1 (), envelope p2 ()], queue_empty := false,
        calls := [], freed := [] },
      { q := [], queue_empty := true,
        calls := [envelope p0 (), envelope p1 (), envelope p2 ()],
        freed := [envelope p0 (), envelope p1 (), envelope p2 ()] },
      ?_, ?_, ?_, rfl, ?_, ?_, ?_, rfl, rfl, ?_⟩
    · simp [SRT_send_message, h0, send_line117, send_line116, fifo, SRT_init, envelope]
    · simp [SRT_send_message, h1, send_line117, send_line116, fifo, envelope]
    · simp [SRT_send_message, h2, send_line117, send_line116, fifo, envelope]
    · simp [SRT_wait_for_idle, fifo]
    · intro fuel hfuel
      exact flushEventQueue_fifo _ fuel _ rfl (by simpa using hfuel)
    · simp [SRT_wait_for_idle, fifo]
    · simp [replay, rec_handler, envelope, v0, v1, v2]
  · intro acts y hrun hsent
    have hinv : Accounted y :=
      run_induction (fifo (mq_msg_t Unit)) Accounted
        (fun x a x1 hx hstep => step_accounted x x1 a hx hstep) acts _ y init_accounted hrun
    have hready : y.dpc = .l40 → y.rt.q ≠ [] :=
      run_induction (fifo (mq_msg_t Unit)) (fun x => x.dpc = .l40 → x.rt.q ≠ [])
        (fun x a x1 hx hstep => step_dequeue_ready x x1 a hx hstep) acts _ y
        (by intro h; cases h) hrun
    have hthree : ∀ calls : List (mq_msg_t Unit),
        calls = [envelope p0 (), envelope p1 (), envelope p2 ()] →
        replay (rec_handler heap) [] calls = [0, 1, 2] := by
      intro calls hc
      simp [hc, replay, rec_handler, envelope, v0, v1, v2]
    refine ⟨?_, ?_⟩
    · intro r hr
      have hempty : y.rt.q = [] ∧ r = y.rt := by
        unfold SRT_wait_for_idle at hr
        cases hl : y.rt.q with
        | nil =>
          simp [fifo, hl] at hr
          refine ⟨rfl, ?_⟩
          rw [← hr, ← hl]
        | cons m rest => simp [fifo, hl] at hr
      obtain ⟨hnil, hrt⟩ := hempty
      refine ⟨hrt, ?_⟩
      have hacc := hinv.1
      rw [hnil, hsent, List.append_nil] at hacc
      subst hrt
      cases hd : y.dpc with
      | l46 m =>
        right
        simp only [hd, in_flight] at hacc
        have hsplit : y.rt.calls ++ [m] = [envelope p0 (), envelope p1 ()] ++ [envelope p2 ()] := by
          simpa using hacc
        obtain ⟨hc, hm⟩ := List.append_inj' hsplit rfl
        refine ⟨by simp [in_flight] at hm ⊢; exact hm, ?_⟩
        simp [hc, replay, rec_handler, envelope, v0, v1]
      | _ =>
        left
        simp only [hd, in_flight, List.append_nil] at hacc
        exact ⟨rfl, hthree _ hacc⟩
    · intro hh
      obtain ⟨n, y1, hrun1, hq1, hd1, -, hh1, hsent1, -, hcalls1⟩ :=
        disp_reaches_idle y hh hready
      refine ⟨n, y1, hrun1, hq1, by simp [hd1, in_flight], hh1, ?_, ?_⟩
      · simp only [SRT_wait_for_idle, fifo, hq1]
        simp
        rw [← hq1]
      · apply hthree
        rw [hcalls1, hinv.1, hsent]

/-- C1, amended, on a queue of two envelopes, and on the scenario with payloads
at the addresses 1, 2, 3 that carry 0, 1, 2: from the state in which
`SRT_wait_for_idle` returned early the dispatcher reaches
`recorded = [0, 1, 2]`. -/
theorem C1_flush_order_and_scenario_outcome_witness :
    flushEventQueue (fifo (mq_msg_t Nat)) 3
        { q := [{ wrapper := 7, handler := 1 }, { wrapper := 8, handler := 2 }],
          queue_empty := false, calls := [], freed := [] } =
      some (.ret { q := [], queue_empty := true,
                   calls := [] ++ [{ wrapper := 7, handler := 1 }, { wrapper := 8, handler := 2 }],
                   freed := [] ++ [{ wrapper := 7, handler := 1 }, { wrapper := 8, handler := 2 }] }) ∧
    (∃ y, run (fifo (mq_msg_t Unit)) (Sys.init (fifo (mq_msg_t Unit))) early_idle_schedule
        = some y ∧
      ∃ n y1, run (fifo (mq_msg_t Unit)) y (List.replicate n .disp) = some y1 ∧
        y1.rt.q = [] ∧ in_flight y1.dpc = [] ∧ y1.halted = none ∧
        SRT_wait_for_idle (fifo (mq_msg_t Unit)) y1.rt = some y1.rt ∧
        replay (rec_handler (fun p => p - 1)) [] y1.rt.calls = [0, 1, 2]) :=
  ⟨(C1_flush_order_and_scenario_outcome
      [{ wrapper := 7, handler := 1 }, { wrapper := 8, handler := 2 }]
      { q := [{ wrapper := 7, handler := 1 }, { wrapper := 8, handler := 2 }],
        queue_empty := false, calls := [], freed := [] }
      (fun p => p - 1) 1 2 3 rfl (by decide) (by decide) (by decide) rfl rfl rfl).1 3
      (by decide),
    ⟨_, rfl,
      ((C1_flush_order_and_scenario_outcome
        [{ wrapper := 7, handler := 1 }, { wrapper := 8, handler := 2 }]
        { q := [{ wrapper := 7, handler := 1 }, { wrapper := 8, handler := 2 }],
          queue_empty := false, calls := [], freed := [] }
        (fun p => p - 1) 1 2 3 rfl (by decide) (by decide) (by decide) rfl rfl rfl).2.2
        early_idle_schedule _ rfl rfl).2 rfl⟩⟩

end Drain

/-! ## The lifecycle -/

section LifecycleFacts

variable {Q H : Type}

/-- A property that every step keeps holds along every schedule of the
process. -/
theorem lrun_induction (ops : queue_ops Q (mq_msg_t H)) (P : Proc Q H → Prop)
    (hstep : ∀ p a p1, P p → lstep ops p a = some p1 → P p1) :
    ∀ (acts : List (LAction H)) (p p1 : Proc Q H), P p → lrun ops p acts = some p1 → P p1 := by
  intro acts
  induction acts with
  | nil =>
    intro p p1 hP hrun
    simp [lrun] at hrun
    exact hrun ▸ hP
  | cons a rest ih =>
    intro p p1 hP hrun
    unfold lrun at hrun
    cases hs : lstep ops p a with
    | none => simp [hs] at hrun
    | some p2 =>
      simp only [hs] at hrun
      exact ih p2 p1 (hstep p a p2 hP hs) hrun

/-- The process reaches `Stopped` only with the dispatcher ended, and the
dispatcher is not started again. -/
theorem lstep_stopped_dead (ops : queue_ops Q (mq_msg_t H)) (p p1 : Proc Q H) (a : LAction H)
    (hinv : StoppedDead p) (hs : lstep ops p a = some p1) : StoppedDead p1 := by
  cases a with
  | init =>
    simp only [lstep] at hs
    split at hs
    · cases hs; intro h; cases h
    · cases hs
  | run =>
    simp only [lstep] at hs
    split at hs
    · cases hs; intro h; cases h
    · cases hs
  | stop_cancel =>
    simp only [lstep] at hs
    split at hs
    · next hc => cases hs; intro h; simp only at h; rw [hc.1] at h; cases h
    · cases hs
  | worker_ends =>
    simp only [lstep] at hs
    split at hs
    · cases hs; intro _; rfl
    · cases hs
  | stop_join =>
    simp only [lstep] at hs
    split at hs
    · next hc => cases hs; intro _; exact hc.2.2.1
    · cases hs
  | thread b =>
    simp only [lstep] at hs
    split at hs
    · cases hs
    · split at hs
      · cases hs
      · cases hs; exact hinv

/-- A statement of a producer other than the enqueue of line 117 leaves the
queue and the traces alone. -/
theorem step_off_queue (ops : queue_ops Q (mq_msg_t H)) (s s1 : Sys Q H) (a : Action H)
    (ha : a.is_producer = true) (hq : touches_queue s a = false)
    (hs : step ops s a = some s1) :
    s1.rt.calls = s.rt.calls ∧ s1.rt.freed = s.rt.freed ∧ s1.rt.q = s.rt.q := by
  unfold step at hs
  split at hs
  · cases hs
  · cases a with
    | call t msg handler =>
      simp only [call_step] at hs
      split at hs
      · split at hs <;> (cases hs; exact ⟨rfl, rfl, rfl⟩)
      · cases hs
    | prod t ok =>
      simp only [prod_step] at hs
      split at hs
      · cases hs
      · split at hs <;> (cases hs; exact ⟨rfl, rfl, rfl⟩)
      · cases hs; exact ⟨rfl, rfl, rfl⟩
      · next qmsg hpc => simp [touches_queue, hpc] at hq
    | disp => simp [Action.is_producer] at ha

/-- In `Stopped`, with the dispatcher ended, every step leaves the process
stopped, the dispatcher ended, and the queue and the traces as they were. -/
theorem lstep_after_stop (ops : queue_ops Q (mq_msg_t H)) (p p1 : Proc Q H) (a : LAction H)
    (hlife : p.life = .Stopped) (hdead : p.worker_alive = false)
    (hs : lstep ops p a = some p1) :
    p1.life = .Stopped ∧ p1.worker_alive = false ∧ p1.sys.rt.calls = p.sys.rt.calls ∧
      p1.sys.rt.freed = p.sys.rt.freed ∧ p1.sys.rt.q = p.sys.rt.q := by
  cases a with
  | init => simp [lstep, hlife] at hs
  | run => simp [lstep, hlife] at hs
  | stop_cancel => simp [lstep, hlife] at hs
  | worker_ends => simp [lstep, hdead] at hs
  | stop_join => simp [lstep, hlife] at hs
  | thread b =>
    simp only [lstep] at hs
    split at hs
    · cases hs
    · next hno =>
      have hprod : b.is_producer = true := by
        cases hb : b.is_producer with
        | true => rfl
        | false => exact absurd (Or.inl ⟨hb, hdead⟩) hno
      have hoff : touches_queue p.sys b = false := by
        cases ht : touches_queue p.sys b with
        | false => rfl
        | true => exact absurd (Or.inr ⟨ht, by simp [hlife, Lifecycle.has_queue]⟩) hno
      split at hs
      · cases hs
      · next s1 hstep =>
        cases hs
        obtain ⟨h1, h2, h3⟩ := step_off_queue ops p.sys s1 b hprod hoff hstep
        exact ⟨hlife, hdead, h1, h2, h3⟩

/-- C9: in the lifecycle `Uninitialized`, `Initialized`, `Running`,
`Stopped`, a state reached from the start in which `SRT_stop` has completed
has the dispatcher ended, and every state reached from it by any further
steps is still stopped, has the same trace of handler calls, the same trace
of releases and the same queue content: the envelopes queued at stop time are
never handed to a handler and never released, and the dispatcher has no
step. -/
theorem C9_no_handler_after_stop (ops : queue_ops Q (mq_msg_t H))
    (before after : List (LAction H)) (p p1 : Proc Q H)
    (hreach : lrun ops (Proc.init ops) before = some p) (hstop : p.life = .Stopped)
    (hlater : lrun ops p after = some p1) :
    p.worker_alive = false ∧ p1.life = .Stopped ∧ p1.worker_alive = false ∧
    p1.sys.rt.calls = p.sys.rt.calls ∧ p1.sys.rt.freed = p.sys.rt.freed ∧
    p1.sys.rt.q = p.sys.rt.q ∧ lstep ops p1 (.thread .disp) = none := by
  have hdead : p.worker_alive = false :=
    lrun_induction ops StoppedDead (fun x a x1 hx hstep => lstep_stopped_dead ops x x1 a hx hstep)
      before _ p (by intro h; cases h) hreach hstop
  have hkeep := lrun_induction ops
    (fun x => x.life = .Stopped ∧ x.worker_alive = false ∧ x.sys.rt.calls = p.sys.rt.calls ∧
      x.sys.rt.freed = p.sys.rt.freed ∧ x.sys.rt.q = p.sys.rt.q)
    (fun x a x1 hx hstep => by
      obtain ⟨h1, h2, h3, h4, h5⟩ := lstep_after_stop ops x x1 a hx.1 hx.2.1 hstep
      exact ⟨h1, h2, h3.trans hx.2.2.1, h4.trans hx.2.2.2.1, h5.trans hx.2.2.2.2⟩)
    after p p1 ⟨hstop, hdead, rfl, rfl, rfl⟩ hlater
  obtain ⟨h1, h2, h3, h4, h5⟩ := hkeep
  refine ⟨hdead, h1, h2, h3, h4, h5, ?_⟩
  simp [lstep, Action.is_producer, h2]

/-- C9 on a run in which one envelope is enqueued, `SRT_stop` completes before
the dispatcher takes it, and a producer then starts another send: the
envelope stays in the queue and no handler is called. -/
theorem C9_no_handler_after_stop_witness :
    ∃ p p1, lrun (fifo (mq_msg_t Nat)) (Proc.init (fifo (mq_msg_t Nat))) stop_schedule = some p ∧
      p.life = .Stopped ∧ p.sys.rt.q = [{ wrapper := 7, handler := 1 }] ∧ p.sys.rt.calls = [] ∧
      lrun (fifo (mq_msg_t Nat)) p after_stop_schedule = some p1 ∧
      p1.sys.rt.calls = p.sys.rt.calls ∧ p1.sys.rt.q = p.sys.rt.q ∧
      p1.sys.rt.freed = p.sys.rt.freed :=
  ⟨_, _, rfl, rfl, rfl, rfl, rfl,
    (C9_no_handler_after_stop (fifo (mq_msg_t Nat)) stop_schedule after_stop_schedule _ _
      rfl rfl rfl).2.2.2.1,
    (C9_no_handler_after_stop (fifo (mq_msg_t Nat)) stop_schedule after_stop_schedule _ _
      rfl rfl rfl).2.2.2.2.2.1,
    (C9_no_handler_after_stop (fifo (mq_msg_t Nat)) stop_schedule after_stop_schedule _ _
      rfl rfl rfl).2.2.2.2.1⟩

end LifecycleFacts

end Smear
